import Mathlib

/-!
Shallow embedding of the issue-to-action pipeline of the `ai-dev-agents`
repository, translated from `src/crew_agents.py`, `src/github_mcp_client.py`
and `src/mcp_server.py`.

Conventions of the embedding:
* Python strings are modelled as `List Char`; string formatting becomes list
  append, `str.lower` becomes `List.map Char.toLower`, slicing becomes
  `List.take`, the substring operator `in` becomes `pyIn` below, and
  `str.isalnum` / default `str.strip` are modelled over their ASCII behaviour.
* Decimal formatting of an integer (an f-string `{n}` placeholder) is modelled
  by `natRepr`, a fuel-based structural rendering of the usual repeated
  division by ten (the fuel `n` is always sufficient since `n / 10 < n`).
* The network is an oracle: every MCP client call is recorded as an event in a
  trace, and its result is supplied by an environment of response functions.
  The `repository` argument, threaded unchanged through every call, is omitted
  from the oracle.  The Python client methods never raise (each body sits in a
  `try/except` returning a default, proved in the gateway section), so an
  oracle returning plain values is a faithful model of the executor's calls.
-/

set_option maxHeartbeats 1000000
set_option maxRecDepth 4000

namespace AIDevAgents

/-- Model of the pydantic `GitHubIssue` record of `github_mcp_client.py`.
Labels are modelled by their names only; the decision pipeline never reads
`state`, `labels`, the timestamps or `html_url`. -/
structure GitHubIssue where
  number : Nat
  title : List Char
  body : List Char
  state : List Char
  labels : List (List Char)
  created_at : List Char
  updated_at : List Char
  html_url : List Char
  deriving Repr, DecidableEq

/-- Digit character for a value below ten, `'*'` otherwise (the fallback never
occurs for `m % 10`). -/
def digitChar : Nat → Char
  | 0 => '0'
  | 1 => '1'
  | 2 => '2'
  | 3 => '3'
  | 4 => '4'
  | 5 => '5'
  | 6 => '6'
  | 7 => '7'
  | 8 => '8'
  | 9 => '9'
  | _ => '*'

/-- Fuel-based accumulator loop of decimal rendering. -/
def natReprAux : Nat → Nat → List Char → List Char
  | 0, _, acc => acc
  | fuel + 1, n, acc =>
    if n = 0 then acc else natReprAux fuel (n / 10) (digitChar (n % 10) :: acc)

/-- Decimal rendering of a natural number, the model of an f-string `{n}`
placeholder for a Python int. -/
def natRepr (n : Nat) : List Char :=
  if n = 0 then ['0'] else natReprAux n n []

/-- Model of the Python substring operator `needle in hay`: some suffix of the
haystack starts with the needle. -/
def pyIn (needle : List Char) : List Char → Bool
  | [] => needle.isEmpty
  | c :: rest => needle.isPrefixOf (c :: rest) || pyIn needle rest

theorem pyIn_iff (needle hay : List Char) : pyIn needle hay = true ↔ needle <:+: hay := by
  induction hay with
  | nil =>
    simp [pyIn, List.isEmpty_iff, List.infix_nil]
  | cons c rest ih =>
    simp [pyIn, List.infix_cons_iff, ih, List.isPrefixOf_iff_prefix]

/-- Keyword set of `SeniorDeveloperAgent._requires_code_changes`. -/
def code_keywords : List (List Char) :=
  ["implement".toList, "create".toList, "add".toList, "fix".toList,
   "update".toList, "modify".toList, "change".toList, "function".toList,
   "class".toList, "method".toList, "api".toList, "endpoint".toList,
   "file".toList, "code".toList, "script".toList, "module".toList,
   "library".toList, "package".toList, "component".toList]

/-- Keyword set of `SeniorDeveloperAgent._is_invalid_issue`. -/
def invalid_keywords : List (List Char) :=
  ["invalid".toList, "unclear".toList, "not clear".toList, "confusing".toList,
   "wrong".toList, "error".toList, "duplicate".toList, "spam".toList,
   "test".toList, "example".toList, "sample".toList]

/-- Keyword set of `SeniorDeveloperAgent._is_completed_issue`. -/
def completed_keywords : List (List Char) :=
  ["done".toList, "completed".toList, "finished".toList, "resolved".toList,
   "fixed".toList, "closed".toList, "implemented".toList, "added".toList,
   "created".toList]

/-- The lowercased text `f"{task.title} {task.body}".lower()` each classifier
predicate scans. -/
def issue_text (task : GitHubIssue) : List Char :=
  (task.title ++ [' '] ++ task.body).map Char.toLower

/-- Model of `_requires_code_changes`: any code keyword occurs as a substring. -/
def requires_code_changes (task : GitHubIssue) : Bool :=
  code_keywords.any (fun k => pyIn k (issue_text task))

/-- Model of `_is_invalid_issue`. -/
def is_invalid_issue (task : GitHubIssue) : Bool :=
  invalid_keywords.any (fun k => pyIn k (issue_text task))

/-- Model of `_is_completed_issue`. -/
def is_completed_issue (task : GitHubIssue) : Bool :=
  completed_keywords.any (fun k => pyIn k (issue_text task))

/-- The four action outcomes of `_take_action_on_issues` for one issue. -/
inductive IssueAction where
  | requiresCodeChange
  | closeInvalid
  | closeCompleted
  | addAnalysisComment
  deriving Repr, DecidableEq

/-- The `if / elif / elif / else` decision chain of `_take_action_on_issues`
(lines 384-415 of `crew_agents.py`). -/
def classify_issue (task : GitHubIssue) : IssueAction :=
  if requires_code_changes task then IssueAction.requiresCodeChange
  else if is_invalid_issue task then IssueAction.closeInvalid
  else if is_completed_issue task then IssueAction.closeCompleted
  else IssueAction.addAnalysisComment

/-- Model of `branch_name` construction in `_create_pull_request_for_issue`
(lines 460-461 of `crew_agents.py`): format `ai-task-{number}-{slug}` with
`slug = title.lower().replace(' ', '-')[:30]`, then keep only alphanumeric
characters and hyphens. -/
def branch_name_for (task : GitHubIssue) : List Char :=
  let slug :=
    ((task.title.map Char.toLower).map (fun c => if c = ' ' then '-' else c)).take 30
  let raw := ("ai-task-".toList) ++ natRepr task.number ++ ("-".toList) ++ slug
  raw.filter (fun c => c.isAlphanum || c = '-')

theorem digitChar_isDigit {n : Nat} (h : n < 10) : (digitChar n).isDigit = true := by
  interval_cases n <;> decide

theorem natReprAux_digits :
    ∀ fuel n acc, (∀ c ∈ acc, c.isDigit = true) →
      ∀ c ∈ natReprAux fuel n acc, c.isDigit = true := by
  intro fuel
  induction fuel with
  | zero =>
    intro n acc hacc c hc
    simpa [natReprAux] using hacc c hc
  | succ f ih =>
    intro n acc hacc c hc
    by_cases hn : n = 0
    · rw [natReprAux, if_pos hn] at hc
      exact hacc c hc
    · rw [natReprAux, if_neg hn] at hc
      refine ih (n / 10) _ ?_ c hc
      intro d hd
      rcases List.mem_cons.mp hd with h | h
      · subst h
        exact digitChar_isDigit (Nat.mod_lt n (by omega))
      · exact hacc d h

theorem natRepr_digits (n : Nat) : ∀ c ∈ natRepr n, c.isDigit = true := by
  intro c hc
  by_cases hn : n = 0
  · rw [natRepr, if_pos hn] at hc
    simp at hc
    subst hc
    decide
  · rw [natRepr, if_neg hn] at hc
    exact natReprAux_digits n n [] (by intro d hd; simp at hd) c hc

theorem natRepr_keep (n : Nat) :
    (natRepr n).filter (fun c => c.isAlphanum || c = '-') = natRepr n := by
  apply List.filter_eq_self.mpr
  intro c hc
  have := natRepr_digits n c hc
  simp [Char.isAlphanum, this]

/-- Claim C1: for every issue, the action is chosen by fixed priority over the
lowercased space-joined concatenation of title and body, by substring
containment: code-change keywords first, then invalid keywords, then completed
keywords, else the default analysis comment; the classification is total and
the four outcomes are mutually exclusive (each issue maps to exactly one
constructor of `IssueAction`). -/
theorem c1_classification_priority (task : GitHubIssue) :
    (classify_issue task = IssueAction.requiresCodeChange ↔
      ∃ k ∈ code_keywords, k <:+: issue_text task) ∧
    (classify_issue task = IssueAction.closeInvalid ↔
      (¬ ∃ k ∈ code_keywords, k <:+: issue_text task) ∧
      ∃ k ∈ invalid_keywords, k <:+: issue_text task) ∧
    (classify_issue task = IssueAction.closeCompleted ↔
      (¬ ∃ k ∈ code_keywords, k <:+: issue_text task) ∧
      (¬ ∃ k ∈ invalid_keywords, k <:+: issue_text task) ∧
      ∃ k ∈ completed_keywords, k <:+: issue_text task) ∧
    (classify_issue task = IssueAction.addAnalysisComment ↔
      (¬ ∃ k ∈ code_keywords, k <:+: issue_text task) ∧
      (¬ ∃ k ∈ invalid_keywords, k <:+: issue_text task) ∧
      ¬ ∃ k ∈ completed_keywords, k <:+: issue_text task) := by
  have hcode : requires_code_changes task = true ↔
      ∃ k ∈ code_keywords, k <:+: issue_text task := by
    simp [requires_code_changes, List.any_eq_true, pyIn_iff]
  have hinv : is_invalid_issue task = true ↔
      ∃ k ∈ invalid_keywords, k <:+: issue_text task := by
    simp [is_invalid_issue, List.any_eq_true, pyIn_iff]
  have hcomp : is_completed_issue task = true ↔
      ∃ k ∈ completed_keywords, k <:+: issue_text task := by
    simp [is_completed_issue, List.any_eq_true, pyIn_iff]
  unfold classify_issue
  by_cases h1 : requires_code_changes task = true <;>
    by_cases h2 : is_invalid_issue task = true <;>
      by_cases h3 : is_completed_issue task = true <;>
        simp_all [hcode, hinv, hcomp]

/-- Claim C4: the branch name equals the `ai-task-<number>-` prefix followed by
the filtered 30-character slug of the lowercased, hyphenated title; it contains
only alphanumerics and hyphens; its length is at most the prefix length plus
30; and it depends only on the issue number and title. -/
theorem c4_branch_name (task : GitHubIssue) :
    (branch_name_for task =
      ("ai-task-".toList) ++ natRepr task.number ++ ("-".toList) ++
        (((task.title.map Char.toLower).map
            (fun c => if c = ' ' then '-' else c)).take 30).filter
          (fun c => c.isAlphanum || c = '-')) ∧
    (∀ c ∈ branch_name_for task, c.isAlphanum = true ∨ c = '-') ∧
    (branch_name_for task).length ≤
      (("ai-task-".toList) ++ natRepr task.number ++ ("-".toList)).length + 30 ∧
    ∀ t2 : GitHubIssue, t2.number = task.number → t2.title = task.title →
      branch_name_for t2 = branch_name_for task := by
  refine ⟨?_, ?_, ?_, ?_⟩
  · unfold branch_name_for
    simp only [List.filter_append]
    rw [natRepr_keep]
    rfl
  · intro c hc
    unfold branch_name_for at hc
    have := List.of_mem_filter hc
    simpa [Bool.or_eq_true] using this
  · unfold branch_name_for
    simp only [List.filter_append]
    rw [natRepr_keep]
    simp only [List.length_append]
    have h2 := List.length_filter_le (fun c => c.isAlphanum || c = '-') ("ai-task-".toList)
    have h3 := List.length_filter_le (fun c => c.isAlphanum || c = '-') ("-".toList)
    have h4 := List.length_filter_le (fun c => c.isAlphanum || c = '-')
      (((task.title.map Char.toLower).map (fun c => if c = ' ' then '-' else c)).take 30)
    have h5 : (((task.title.map Char.toLower).map
        (fun c => if c = ' ' then '-' else c)).take 30).length ≤ 30 :=
      List.length_take_le 30 _
    omega
  · intro t2 hn ht
    unfold branch_name_for
    rw [hn, ht]

/-- Word character of the regex class `\w` (ASCII behaviour): alphanumeric or
underscore. -/
def isWordChar (c : Char) : Bool := c.isAlphanum || c = '_'

/-- Whitespace stripped by Python's default `str.strip` (ASCII set). -/
def pyIsSpace (c : Char) : Bool :=
  c = ' ' || c = '\t' || c = '\n' || c = '\r' || c = '\x0b' || c = '\x0c'

/-- Model of Python `str.strip()`: drop leading and trailing whitespace. -/
def pyStrip (s : List Char) : List Char :=
  ((s.dropWhile pyIsSpace).reverse.dropWhile pyIsSpace).reverse

/-- An extracted code block, the `{'language': ..., 'code': ...}` record of
`extract_code_blocks`. -/
structure CodeBlock where
  language : List Char
  code : List Char
  deriving Repr, DecidableEq

/-- The non-greedy tail of the fence regex: content of `(.*?)` up to the first
occurrence of a closing triple backtick, together with the remainder after it;
`none` when the fence is unterminated. -/
def findClose : List Char → Option (List Char × List Char)
  | [] => none
  | a :: rest =>
    if ("```".toList).isPrefixOf (a :: rest) then some ([], rest.drop 2)
    else (findClose rest).map (fun p => (a :: p.1, p.2))

/-- One attempted match of the regex pattern of `extract_code_blocks`,
`r'` followed by three backticks, `(\w+)?\n(.*?)` and three backticks, with
`re.DOTALL`, anchored at the head of `s`.  The optional greedy group `(\w+)?`
is the maximal word-character run after the opening fence (backtracking cannot
help: every shorter run is followed by a word character, never by the required
newline).  On success it returns the language group (possibly empty), the raw
content, and the remainder after the match. -/
def matchFenceAt (s : List Char) : Option (List Char × List Char × List Char) :=
  if ("```".toList).isPrefixOf s then
    if ((s.drop 3).dropWhile isWordChar).take 1 = ['\n'] then
      match findClose (((s.drop 3).dropWhile isWordChar).drop 1) with
      | some p => some ((s.drop 3).takeWhile isWordChar, p.1, p.2)
      | none => none
    else none
  else none

/-- The scan loop of `re.findall`: try a match at each position, left to
right; on a match continue after it, otherwise advance one character.  The
fuel argument only makes the recursion structural; `scanBlocks` always passes
enough (every step shortens the list). -/
def scanBlocksAux : Nat → List Char → List (List Char × List Char)
  | 0, _ => []
  | fuel + 1, s =>
    match matchFenceAt s with
    | some (w, content, rest) => (w, content) :: scanBlocksAux fuel rest
    | none =>
      match s with
      | [] => []
      | _ :: rest => scanBlocksAux fuel rest

/-- All matches of the fence pattern in first-occurrence order. -/
def scanBlocks (s : List Char) : List (List Char × List Char) :=
  scanBlocksAux s.length s

/-- Model of `SeniorDeveloperAgent.extract_code_blocks`
(lines 288-311 of `crew_agents.py`): every regex match becomes a code block,
with the sentinel language `text` for an untagged fence and the content
stripped of surrounding whitespace. -/
def extract_code_blocks (text : List Char) : List CodeBlock :=
  (scanBlocks text).map (fun p =>
    { language := if p.1 = [] then "text".toList else p.1
      code := pyStrip p.2 })

/-- The text of one fenced block: opening fence, optional tag, newline,
content, closing fence. -/
def fencedRegion (tag content : List Char) : List Char :=
  ("```".toList) ++ tag ++ ['\n'] ++ content ++ ("```".toList)

theorem findClose_length :
    ∀ s pre post, findClose s = some (pre, post) → post.length < s.length := by
  intro s
  induction s with
  | nil => intro pre post h; simp [findClose] at h
  | cons a rest ih =>
    intro pre post h
    rw [findClose] at h
    split at h
    · rw [Option.some.injEq, Prod.mk.injEq] at h
      have h2 : rest.drop 2 = post := h.2
      subst h2
      simp only [List.length_drop, List.length_cons]
      omega
    · rcases Option.map_eq_some'.mp h with ⟨⟨p1, p2⟩, hfc, heq⟩
      cases heq
      have := ih p1 p2 hfc
      simp only [List.length_cons]
      omega

theorem matchFenceAt_length {s w content rest : List Char}
    (h : matchFenceAt s = some (w, content, rest)) : rest.length < s.length := by
  unfold matchFenceAt at h
  split at h
  · split at h
    · split at h
      · next p hfc =>
        rw [Option.some.injEq] at h
        have h2 : rest = p.2 := by
          have := congrArg (fun q => q.2.2) h
          simpa using this.symm
        subst h2
        have h3 := findClose_length _ p.1 p.2 (by rw [hfc])
        have h4 : (((s.drop 3).dropWhile isWordChar).drop 1).length ≤
            ((s.drop 3).dropWhile isWordChar).length := by
          simp [List.length_drop]
        have h5 : ((s.drop 3).dropWhile isWordChar).length ≤ (s.drop 3).length :=
          (List.dropWhile_sublist _).length_le
        have h6 : (s.drop 3).length = s.length - 3 := List.length_drop 3 s
        have h7 : 0 < s.length := by
          cases s with
          | nil => simp [List.isPrefixOf] at *
          | cons a t => simp
        omega
      · exact absurd h (by simp)
    · exact absurd h (by simp)
  · exact absurd h (by simp)

theorem scanBlocksAux_nil (fuel : Nat) : scanBlocksAux fuel [] = [] := by
  cases fuel with
  | zero => rfl
  | succ f =>
    rw [scanBlocksAux]
    have hm : matchFenceAt [] = none := by
      unfold matchFenceAt
      rw [if_neg (by simp [List.isPrefixOf])]
    rw [hm]

theorem scanBlocksAux_irrel :
    ∀ f1 f2 s, s.length ≤ f1 → s.length ≤ f2 →
      scanBlocksAux f1 s = scanBlocksAux f2 s := by
  intro f1
  induction f1 with
  | zero =>
    intro f2 s h1 h2
    have hs : s = [] := List.eq_nil_of_length_eq_zero (by omega)
    subst hs
    rw [scanBlocksAux_nil, scanBlocksAux_nil]
  | succ f ih =>
    intro f2 s h1 h2
    cases s with
    | nil => rw [scanBlocksAux_nil, scanBlocksAux_nil]
    | cons a tail =>
      cases f2 with
      | zero => simp at h2
      | succ f2' =>
        rw [scanBlocksAux, scanBlocksAux]
        cases hm : matchFenceAt (a :: tail) with
        | some trip =>
          obtain ⟨w, content, rest⟩ := trip
          dsimp only
          have hlen := matchFenceAt_length hm
          simp only [List.length_cons] at hlen h1 h2
          rw [ih f2' rest (by omega) (by omega)]
        | none =>
          dsimp only
          exact ih f2' tail (by simp at h1; omega) (by simp at h2; omega)

theorem scanBlocks_step {s w content rest : List Char}
    (hm : matchFenceAt s = some (w, content, rest)) :
    scanBlocks s = (w, content) :: scanBlocks rest := by
  have hlen := matchFenceAt_length hm
  have hpos : 0 < s.length := by omega
  obtain ⟨a, tail, hs⟩ : ∃ a tail, s = a :: tail := by
    cases s with
    | nil => simp at hpos
    | cons a t => exact ⟨a, t, rfl⟩
  subst hs
  unfold scanBlocks
  simp only [List.length_cons]
  rw [scanBlocksAux, hm]
  dsimp only
  simp only [List.length_cons] at hlen
  rw [scanBlocksAux_irrel tail.length rest.length rest (by omega) (le_refl _)]

theorem take_le_two_ticks (k : Nat) (hk : k ≤ 2) (R : List Char) :
    List.take k (("```".toList) ++ R) = List.take k ("``".toList) := by
  interval_cases k <;> rfl

theorem findClose_clean :
    ∀ content R : List Char, ¬ (("```".toList) <:+: (content ++ ("``".toList))) →
      findClose (content ++ ("```".toList) ++ R) = some (content, R) := by
  intro content
  induction content with
  | nil =>
    intro R h
    show findClose ('`' :: '`' :: '`' :: R) = some ([], R)
    have hpre : ("```".toList).isPrefixOf ('`' :: '`' :: '`' :: R) = true :=
      List.isPrefixOf_iff_prefix.mpr ⟨R, rfl⟩
    rw [findClose, if_pos hpre]
    rfl
  | cons a c' ih =>
    intro R h
    have hassoc : (a :: c') ++ ("```".toList) ++ R = a :: (c' ++ ("```".toList) ++ R) := by
      simp
    rw [hassoc, findClose]
    have hcond : (("```".toList).isPrefixOf (a :: (c' ++ ("```".toList) ++ R))) = false := by
      by_contra hcon
      rw [Bool.not_eq_false] at hcon
      have hp := List.isPrefixOf_iff_prefix.mp hcon
      have htake : ("```".toList) = List.take 3 (a :: (c' ++ ("```".toList) ++ R)) := by
        have h3 : ("```".toList).length = 3 := rfl
        have := List.prefix_iff_eq_take.mp hp
        rwa [h3] at this
      have hb2 : List.take (2 - c'.length) (("```".toList) ++ R)
          = List.take (2 - c'.length) ("``".toList) :=
        take_le_two_ticks _ (by omega) R
      have hbound : List.take 3 (a :: (c' ++ ("```".toList) ++ R))
          = List.take 3 (a :: (c' ++ ("``".toList))) := by
        rw [List.append_assoc, List.take_succ_cons, List.take_succ_cons,
            List.take_append_eq_append_take, hb2, ← List.take_append_eq_append_take]
      have hp2 : ("```".toList) <+: ((a :: c') ++ ("``".toList)) := by
        rw [List.prefix_iff_eq_take]
        have hcons : (a :: c') ++ ("``".toList) = a :: (c' ++ ("``".toList)) := by simp
        rw [hcons]
        have h3 : ("```".toList).length = 3 := rfl
        rw [h3, ← hbound, ← htake]
      exact h hp2.isInfix
    rw [if_neg (by rw [hcond]; simp)]
    have h' : ¬ (("```".toList) <:+: (c' ++ ("``".toList))) := by
      intro hinf
      exact h (List.infix_cons hinf)
    rw [ih R h']
    rfl

theorem takeWhile_word_prefix :
    ∀ t Y : List Char, (∀ ch ∈ t, isWordChar ch = true) →
      (t ++ '\n' :: Y).takeWhile isWordChar = t ∧
      (t ++ '\n' :: Y).dropWhile isWordChar = '\n' :: Y := by
  intro t
  induction t with
  | nil =>
    intro Y h
    have hn : isWordChar '\n' = false := rfl
    constructor
    · simp [List.takeWhile_cons, hn]
    · simp [List.dropWhile_cons, hn]
  | cons a t' ih =>
    intro Y h
    have ha : isWordChar a = true := h a (by simp)
    have iht := ih Y (fun ch hch => h ch (by simp [hch]))
    constructor
    · simp only [List.cons_append, List.takeWhile_cons, ha, if_true, iht.1]
    · simp only [List.cons_append, List.dropWhile_cons, ha, if_true, iht.2]

theorem matchFence_region (t content R : List Char)
    (hw : ∀ ch ∈ t, isWordChar ch = true)
    (hc : ¬ (("```".toList) <:+: (content ++ ("``".toList)))) :
    matchFenceAt (fencedRegion t content ++ R) = some (t, content, R) := by
  have hs : fencedRegion t content ++ R
      = ("```".toList) ++ (t ++ '\n' :: (content ++ ("```".toList) ++ R)) := by
    simp [fencedRegion]
  rw [hs]
  unfold matchFenceAt
  rw [if_pos (List.isPrefixOf_iff_prefix.mpr (List.prefix_append _ _))]
  have hdrop : (("```".toList) ++ (t ++ '\n' :: (content ++ ("```".toList) ++ R))).drop 3
      = t ++ '\n' :: (content ++ ("```".toList) ++ R) := List.drop_left' rfl
  rw [hdrop]
  have htw := takeWhile_word_prefix t (content ++ ("```".toList) ++ R) hw
  rw [htw.1, htw.2]
  have htake1 : ('\n' :: (content ++ ("```".toList) ++ R)).take 1 = ['\n'] := rfl
  rw [if_pos htake1]
  have hdrop1 : ('\n' :: (content ++ ("```".toList) ++ R)).drop 1
      = content ++ ("```".toList) ++ R := rfl
  rw [hdrop1, findClose_clean content R hc]

/-- Claim C3: round-trip of the extractor.  For every list of fenced blocks
whose tags are word characters and whose contents do not close the fence
early (no triple backtick before the appended closing fence — the
well-formedness of a fenced region), extracting from the concatenation of the
regions returns exactly one code block per region, in order, with the tag as
language (the sentinel `text` for an untagged fence) and the whitespace-
trimmed content. -/
theorem c3_extract_round_trip (bs : List (List Char × List Char))
    (h : ∀ p ∈ bs, (∀ ch ∈ p.1, isWordChar ch = true) ∧
          ¬ (("```".toList) <:+: (p.2 ++ ("``".toList)))) :
    extract_code_blocks ((bs.map (fun p => fencedRegion p.1 p.2)).flatten)
      = bs.map (fun p =>
          { language := if p.1 = [] then "text".toList else p.1
            code := pyStrip p.2 : CodeBlock }) := by
  have hscan : ∀ cs : List (List Char × List Char),
      (∀ p ∈ cs, (∀ ch ∈ p.1, isWordChar ch = true) ∧
        ¬ (("```".toList) <:+: (p.2 ++ ("``".toList)))) →
      scanBlocks ((cs.map (fun p => fencedRegion p.1 p.2)).flatten) = cs := by
    intro cs
    induction cs with
    | nil =>
      intro _
      rfl
    | cons p rest ih =>
      intro hcs
      have hp := hcs p (by simp)
      simp only [List.map_cons, List.flatten_cons]
      have hm := matchFence_region p.1 p.2
        ((rest.map (fun q => fencedRegion q.1 q.2)).flatten) hp.1 hp.2
      rw [scanBlocks_step hm]
      rw [ih (fun q hq => hcs q (by simp [hq]))]
  rw [extract_code_blocks, hscan bs h]

/-- Outcome of one HTTP round trip as the client code observes it: either an
exception raised during request/response handling, or a response with a status
code and the parsed payload relevant to the operation. -/
inductive HttpOutcome (α : Type) where
  | exn
  | resp (status : Nat) (data : α)

/-- The `number` and `html_url` fields of the pull-request object returned by
the protocol layer. -/
structure PullRequestData where
  number : Nat
  html_url : List Char
  deriving Repr, DecidableEq

namespace GitHubMCPClient

/-- Model of `GitHubMCPClient.get_issues_by_label` (lines 36-87 of
`github_mcp_client.py`).  The payload is `none` when the response JSON has no
`result.issues`; otherwise one entry per listed issue, `none` for an issue
dict that fails to parse (such an issue is skipped with a warning).  Any
non-200 status or exception yields the empty list. -/
def get_issues_by_label (r : HttpOutcome (Option (List (Option GitHubIssue)))) :
    List GitHubIssue :=
  match r with
  | HttpOutcome.exn => []
  | HttpOutcome.resp status data =>
    if status = 200 then
      match data with
      | some items => items.filterMap id
      | none => []
    else []

/-- Model of `GitHubMCPClient.get_all_open_issues`; same response handling as
`get_issues_by_label` (only the request parameters differ). -/
def get_all_open_issues (r : HttpOutcome (Option (List (Option GitHubIssue)))) :
    List GitHubIssue :=
  match r with
  | HttpOutcome.exn => []
  | HttpOutcome.resp status data =>
    if status = 200 then
      match data with
      | some items => items.filterMap id
      | none => []
    else []

/-- Model of `GitHubMCPClient.get_issue_details`: the payload is the parsed
`result.issue` when present and well-formed, `none` otherwise. -/
def get_issue_details (r : HttpOutcome (Option GitHubIssue)) : Option GitHubIssue :=
  match r with
  | HttpOutcome.exn => none
  | HttpOutcome.resp status data => if status = 200 then data else none

/-- Model of `GitHubMCPClient.close_issue`: the payload is the
`result.success` boolean (`False` when absent). -/
def close_issue (r : HttpOutcome Bool) : Bool :=
  match r with
  | HttpOutcome.exn => false
  | HttpOutcome.resp status data => if status = 200 then data else false

/-- Model of `GitHubMCPClient.add_issue_comment`. -/
def add_issue_comment (r : HttpOutcome Bool) : Bool :=
  match r with
  | HttpOutcome.exn => false
  | HttpOutcome.resp status data => if status = 200 then data else false

/-- Model of `GitHubMCPClient.create_branch`. -/
def create_branch (r : HttpOutcome Bool) : Bool :=
  match r with
  | HttpOutcome.exn => false
  | HttpOutcome.resp status data => if status = 200 then data else false

/-- Model of `GitHubMCPClient.create_file`. -/
def create_file (r : HttpOutcome Bool) : Bool :=
  match r with
  | HttpOutcome.exn => false
  | HttpOutcome.resp status data => if status = 200 then data else false

/-- Model of `GitHubMCPClient.create_pull_request` (lines 282-333): the
payload is the `result.pull_request` object or `none`. -/
def create_pull_request (r : HttpOutcome (Option PullRequestData)) :
    Option PullRequestData :=
  match r with
  | HttpOutcome.exn => none
  | HttpOutcome.resp status data => if status = 200 then data else none

end GitHubMCPClient

/-- Claim C5: for every gateway client operation, a non-2xx response or a
transport-level exception yields the operation's documented default — an
empty list for the list operations, `false` for the boolean operations and
`none` for the object-returning operations.  (No exception propagates: each
model is a total function, mirroring the `try/except` wrapping of every
client method.) -/
theorem c5_client_soft_failure (status : Nat) (h : status < 200 ∨ 300 ≤ status) :
    (∀ d, GitHubMCPClient.get_issues_by_label (HttpOutcome.resp status d) = []) ∧
    GitHubMCPClient.get_issues_by_label HttpOutcome.exn = [] ∧
    (∀ d, GitHubMCPClient.get_all_open_issues (HttpOutcome.resp status d) = []) ∧
    GitHubMCPClient.get_all_open_issues HttpOutcome.exn = [] ∧
    (∀ d, GitHubMCPClient.get_issue_details (HttpOutcome.resp status d) = none) ∧
    GitHubMCPClient.get_issue_details HttpOutcome.exn = none ∧
    (∀ d, GitHubMCPClient.close_issue (HttpOutcome.resp status d) = false) ∧
    GitHubMCPClient.close_issue HttpOutcome.exn = false ∧
    (∀ d, GitHubMCPClient.add_issue_comment (HttpOutcome.resp status d) = false) ∧
    GitHubMCPClient.add_issue_comment HttpOutcome.exn = false ∧
    (∀ d, GitHubMCPClient.create_branch (HttpOutcome.resp status d) = false) ∧
    GitHubMCPClient.create_branch HttpOutcome.exn = false ∧
    (∀ d, GitHubMCPClient.create_file (HttpOutcome.resp status d) = false) ∧
    GitHubMCPClient.create_file HttpOutcome.exn = false ∧
    (∀ d, GitHubMCPClient.create_pull_request (HttpOutcome.resp status d) = none) ∧
    GitHubMCPClient.create_pull_request HttpOutcome.exn = none := by
  have hs : status ≠ 200 := by omega
  refine ⟨?_, rfl, ?_, rfl, ?_, rfl, ?_, rfl, ?_, rfl, ?_, rfl, ?_, rfl, ?_, rfl⟩ <;>
    intro d
  · simp [GitHubMCPClient.get_issues_by_label, hs]
  · simp [GitHubMCPClient.get_all_open_issues, hs]
  · simp [GitHubMCPClient.get_issue_details, hs]
  · simp [GitHubMCPClient.close_issue, hs]
  · simp [GitHubMCPClient.add_issue_comment, hs]
  · simp [GitHubMCPClient.create_branch, hs]
  · simp [GitHubMCPClient.create_file, hs]
  · simp [GitHubMCPClient.create_pull_request, hs]

/-- Witness for claim C5 at the concrete status 500 and concrete payloads. -/
theorem c5_client_soft_failure_witness :
    (500 < 200 ∨ 300 ≤ 500) ∧
    GitHubMCPClient.close_issue (HttpOutcome.resp 500 true) = false ∧
    GitHubMCPClient.create_pull_request
      (HttpOutcome.resp 500 (some ⟨1, "u".toList⟩)) = none :=
  ⟨by decide,
   (c5_client_soft_failure 500 (by decide)).2.2.2.2.2.2.1 true,
   (c5_client_soft_failure 500 (by decide)).2.2.2.2.2.2.2.2.2.2.2.2.2.2.1
     (some ⟨1, "u".toList⟩)⟩

/-- Calls the server-side `close_issue` makes against the GitHub REST API. -/
inductive SrvCall where
  | patchCloseIssue (issue_number : Nat)
  | addIssueComment (issue_number : Nat) (comment : List Char)
  deriving Repr, DecidableEq

/-- Environment of `GitHubMCPServer.close_issue`: whether the held session is
open, the outcome of the PATCH call that closes the issue, and the boolean
result of the dependent `add_issue_comment` call (that helper catches its own
errors and returns a boolean, so a boolean oracle is a faithful model of it). -/
structure ServerEnv where
  sessionOpen : Bool
  patchResult : HttpOutcome Unit
  commentOk : Bool

namespace GitHubMCPServer

/-- Model of `GitHubMCPServer.close_issue` (lines 94-124 of `mcp_server.py`):
with a closed session return `False` without any call; otherwise PATCH the
issue closed; on a 200 response add the comment when a truthy (nonempty) one
is supplied and return `True` without consulting the comment call's result;
on any other status or an exception return `False` without attempting the
comment.  Returns the trace of REST calls and the boolean result. -/
def close_issue (env : ServerEnv) (issue_number : Nat) (comment : Option (List Char)) :
    List SrvCall × Bool :=
  if env.sessionOpen = false then ([], false)
  else
    match env.patchResult with
    | HttpOutcome.exn => ([SrvCall.patchCloseIssue issue_number], false)
    | HttpOutcome.resp status _ =>
      if status = 200 then
        match comment with
        | some c =>
          if c ≠ [] then
            ([SrvCall.patchCloseIssue issue_number,
              SrvCall.addIssueComment issue_number c], true)
          else ([SrvCall.patchCloseIssue issue_number], true)
        | none => ([SrvCall.patchCloseIssue issue_number], true)
      else ([SrvCall.patchCloseIssue issue_number], false)

end GitHubMCPServer

/-- Claim C9: when a (nonempty) comment is supplied and the PATCH close
succeeds, the comment is added by a second dependent call and the operation
returns success for every value of the comment call's result (the environment
`env`, hence `env.commentOk`, is arbitrary); when the close call itself fails
— non-200 status or exception — no comment call is attempted and the
operation returns failure. -/
theorem c9_close_issue_dependent_comment (env : ServerEnv) (n : Nat) (c : List Char)
    (hsess : env.sessionOpen = true) (hc : c ≠ []) :
    (env.patchResult = HttpOutcome.resp 200 () →
      GitHubMCPServer.close_issue env n (some c)
        = ([SrvCall.patchCloseIssue n, SrvCall.addIssueComment n c], true)) ∧
    (∀ status, status ≠ 200 → env.patchResult = HttpOutcome.resp status () →
      GitHubMCPServer.close_issue env n (some c)
        = ([SrvCall.patchCloseIssue n], false)) ∧
    (env.patchResult = HttpOutcome.exn →
      GitHubMCPServer.close_issue env n (some c)
        = ([SrvCall.patchCloseIssue n], false)) := by
  refine ⟨?_, ?_, ?_⟩
  · intro hp
    unfold GitHubMCPServer.close_issue
    rw [hsess, hp]
    simp [hc]
  · intro st hst hp
    unfold GitHubMCPServer.close_issue
    rw [hsess, hp]
    simp [hst]
  · intro hp
    unfold GitHubMCPServer.close_issue
    rw [hsess, hp]
    simp

/-- Witness for claim C9: a concrete environment whose dependent comment call
fails (`commentOk = false`) while the PATCH succeeds — the operation still
reports success and both calls appear in the trace. -/
theorem c9_close_issue_dependent_comment_witness :
    GitHubMCPServer.close_issue ⟨true, HttpOutcome.resp 200 (), false⟩ 5
        (some ("done".toList))
      = ([SrvCall.patchCloseIssue 5, SrvCall.addIssueComment 5 ("done".toList)], true) :=
  (c9_close_issue_dependent_comment ⟨true, HttpOutcome.resp 200 (), false⟩ 5
    ("done".toList) rfl (by decide)).1 rfl

/-- One MCP client call made by the executor, with its arguments (the
repository argument, identical on every call, is omitted). -/
inductive MCPCall where
  | createBranch (branch_name base_branch : List Char)
  | createFile (path content branch message : List Char)
  | createPullRequest (title body head base : List Char)
  | closeIssue (issue_number : Nat) (comment : List Char)
  | addIssueComment (issue_number : Nat) (comment : List Char)
  deriving Repr, DecidableEq

/-- Oracle supplying the results of the MCP client calls the executor makes.
Each field mirrors the return type of the corresponding client method (the
client never raises, as proved in the gateway section, so plain values are a
faithful model). -/
structure MCPEnv where
  create_branch : List Char → List Char → Bool
  create_file : List Char → List Char → List Char → List Char → Bool
  create_pull_request :
    List Char → List Char → List Char → List Char → Option PullRequestData
  close_issue : Nat → List Char → Bool
  add_issue_comment : Nat → List Char → Bool

/-- The supported-language list of the file-creation loop (line 505 of
`crew_agents.py`). -/
def supported_languages : List (List Char) :=
  ["python".toList, "js".toList, "javascript".toList, "typescript".toList,
   "java".toList, "cpp".toList, "c".toList, "go".toList, "rust".toList]

/-- The `ext_map` dict of the file-creation loop (lines 507-517). -/
def ext_map : List (List Char × List Char) :=
  [("python".toList, ".py".toList), ("js".toList, ".js".toList),
   ("javascript".toList, ".js".toList), ("typescript".toList, ".ts".toList),
   ("java".toList, ".java".toList), ("cpp".toList, ".cpp".toList),
   ("c".toList, ".c".toList), ("go".toList, ".go".toList),
   ("rust".toList, ".rs".toList)]

/-- The PR title `f"🤖 AI Agent: Implement {task.title}"` (line 464). -/
def pr_title_for (task : GitHubIssue) : List Char :=
  ("🤖 AI Agent: Implement ".toList) ++ task.title

/-- The PR body template of `_create_pull_request_for_issue` (lines 465-488),
with the first extracted code block spliced into the fence and a fallback
sentence when there is none. -/
def pr_body_for (task : GitHubIssue) (code_blocks : List CodeBlock) : List Char :=
  ("## AI Agent Implementation\n\nThis pull request implements the requirements from Issue #".toList)
  ++ natRepr task.number ++ (": ".toList) ++ task.title
  ++ ("\n\n### Changes Made:\n".toList) ++ task.body
  ++ ("\n\n### Implementation:\nThe AI agent has analyzed the requirements and provided the following implementation:\n\n".toList)
  ++ ("```python\n".toList)
  ++ (match code_blocks with
      | [] => "Implementation details in analysis".toList
      | b :: _ => b.code)
  ++ ("\n```".toList)
  ++ ("\n\n### Files Created/Modified:\n- Generated implementation files saved to `ai_task_implementations/`\n\n### Review Notes:\n- This implementation follows the exact requirements from the GitHub issue\n- No extra features were added beyond what was requested\n- Code has been reviewed for accuracy and completeness\n\n---\n*This PR was automatically generated by the AI Dev Agents system.*".toList)

/-- The file-creation loop of `_create_pull_request_for_issue` (lines
503-533): the block at 0-based index `i` produces one `create_file` call at
the deterministic path when its language is supported, and nothing otherwise.
Returns the trace of `create_file` calls and the number of successful ones
(`files_created`). -/
def file_creation_steps
    (create_file_fn : List Char → List Char → List Char → List Char → Bool)
    (task : GitHubIssue) (branch_name : List Char) :
    Nat → List CodeBlock → List MCPCall × Nat
  | _, [] => ([], 0)
  | i, block :: rest =>
    let r := file_creation_steps create_file_fn task branch_name (i + 1) rest
    if block.language ∈ supported_languages then
      let ext := (List.lookup block.language ext_map).getD (".txt".toList)
      let path := ("ai_task_implementations/ai_task_implementation_".toList)
        ++ natRepr (i + 1) ++ ext
      let message := ("Add implementation for issue #".toList) ++ natRepr task.number
      (MCPCall.createFile path block.code branch_name message :: r.1,
       (if create_file_fn path block.code branch_name message then 1 else 0) + r.2)
    else r

/-- Model of `_create_pull_request_for_issue` (lines 450-560 of
`crew_agents.py`).  Returns the trace of MCP calls made and the result
string.  The `try/except` wrappers of the original cannot fire here because
the client calls return plain values (they never raise). -/
def create_pull_request_for_issue (env : MCPEnv) (task : GitHubIssue)
    (analysis_result : List Char) : List MCPCall × List Char :=
  let code_blocks := extract_code_blocks analysis_result
  if code_blocks = [] then
    ([], "No code implementation found in analysis".toList)
  else
    let branch_name := branch_name_for task
    if env.create_branch branch_name ("main".toList) = false then
      ([MCPCall.createBranch branch_name ("main".toList)],
       ("❌ Failed to create branch ".toList) ++ branch_name
         ++ (" for issue #".toList) ++ natRepr task.number)
    else
      let fsteps := file_creation_steps env.create_file task branch_name 0 code_blocks
      if fsteps.2 = 0 then
        (MCPCall.createBranch branch_name ("main".toList) :: fsteps.1,
         ("❌ No implementation files were created for issue #".toList)
           ++ natRepr task.number)
      else
        let pr_title := pr_title_for task
        let pr_body := pr_body_for task code_blocks
        match env.create_pull_request pr_title pr_body branch_name ("main".toList) with
        | some pr =>
          (MCPCall.createBranch branch_name ("main".toList) :: fsteps.1
             ++ [MCPCall.createPullRequest pr_title pr_body branch_name ("main".toList)],
           ("✅ Successfully created pull request #".toList) ++ natRepr pr.number
             ++ (": ".toList) ++ pr.html_url)
        | none =>
          (MCPCall.createBranch branch_name ("main".toList) :: fsteps.1
             ++ [MCPCall.createPullRequest pr_title pr_body branch_name ("main".toList)],
           ("❌ Failed to create pull request for issue #".toList) ++ natRepr task.number)

/-- Python `str.split(": ")` specialised to the separator the executor uses:
a left-to-right scan consuming non-overlapping occurrences, accumulating the
current segment in reverse. -/
def pySplitCS : List Char → List Char → List (List Char)
  | [], acc => [acc.reverse]
  | [ch], acc => [(ch :: acc).reverse]
  | ch1 :: ch2 :: rest, acc =>
    if ch1 = ':' ∧ ch2 = ' ' then acc.reverse :: pySplitCS rest []
    else pySplitCS (ch2 :: rest) (ch1 :: acc)

/-- The follow-up comment construction of `_take_action_on_issues` (lines
390-394): on a result announcing a created pull request, extract the URL as
the last `": "`-split segment and congratulate; otherwise describe the
failed attempt, embedding the result string. -/
def follow_up_comment (pr_result : List Char) : List Char :=
  if pyIn ("Successfully created pull request".toList) pr_result then
    ("🤖 AI Agent has created a pull request to address this issue: ".toList)
      ++ (if pyIn (": ".toList) pr_result then (pySplitCS pr_result []).getLastD []
          else "Pull request created".toList)
      ++ ("\n\nPlease review the implementation.".toList)
  else
    ("🤖 AI Agent attempted to create a pull request but encountered an issue: ".toList)
      ++ pr_result

/-- Processing of one issue inside the loop of `_take_action_on_issues`
(lines 380-415): the branch taken is `classify_issue`; the pair returned is
the trace of MCP calls and the log lines appended for this issue.  The
boolean results of the `close_issue` and `add_issue_comment` calls are
awaited but never inspected by the source, so only the calls themselves
appear. -/
def take_action_on_issue (env : MCPEnv) (task : GitHubIssue)
    (analysis_result : List Char) : List MCPCall × List (List Char) :=
  let header := ("\nProcessing Issue #".toList) ++ natRepr task.number
    ++ (": ".toList) ++ task.title
  match classify_issue task with
  | IssueAction.requiresCodeChange =>
    let pr := create_pull_request_for_issue env task analysis_result
    let comment := follow_up_comment pr.2
    (pr.1 ++ [MCPCall.addIssueComment task.number comment],
     [header, ("✅ ".toList) ++ pr.2,
      ("✅ Added comment to issue #".toList) ++ natRepr task.number])
  | IssueAction.closeInvalid =>
    ([MCPCall.closeIssue task.number
        ("🤖 AI Agent: This issue appears to be invalid or unclear. Closing as requested.".toList)],
     [header, ("✅ Closed invalid issue #".toList) ++ natRepr task.number])
  | IssueAction.closeCompleted =>
    ([MCPCall.closeIssue task.number
        ("🤖 AI Agent: This issue has been completed. Closing as requested.".toList)],
     [header, ("✅ Closed completed issue #".toList) ++ natRepr task.number])
  | IssueAction.addAnalysisComment =>
    ([MCPCall.addIssueComment task.number
        (("🤖 AI Agent Analysis:\n\n".toList) ++ analysis_result.take 500 ++ ("...".toList))],
     [header, ("✅ Added analysis comment to issue #".toList) ++ natRepr task.number])

/-- One iteration of the loop of `_take_action_on_issues`: process the issue
and append its calls and log lines to the accumulator. -/
def take_action_step (env : MCPEnv) (analysis_result : List Char)
    (acc : List MCPCall × List (List Char)) (task : GitHubIssue) :
    List MCPCall × List (List Char) :=
  let r := take_action_on_issue env task analysis_result
  (acc.1 ++ r.1, acc.2 ++ r.2)

/-- Model of `_take_action_on_issues` (lines 363-417): the banner lines, then
every issue processed in order, accumulating calls and log lines.  The action
log is the ordered list of lines (the source joins them with newlines on
return). -/
def take_action_on_issues (env : MCPEnv) (ai_tasks : List GitHubIssue)
    (analysis_result : List Char) : List MCPCall × List (List Char) :=
  ai_tasks.foldl (take_action_step env analysis_result)
    ([], [List.replicate 50 '=', "ACTIONS TAKEN ON ISSUES".toList,
          List.replicate 50 '='])

/-- Discriminator for `create_file` calls. -/
def isCreateFileCall : MCPCall → Bool
  | MCPCall.createFile _ _ _ _ => true
  | _ => false

/-- Discriminator for `create_pull_request` calls. -/
def isCreatePullRequestCall : MCPCall → Bool
  | MCPCall.createPullRequest _ _ _ _ => true
  | _ => false

/-- Discriminator for `add_issue_comment` calls. -/
def isAddIssueCommentCall : MCPCall → Bool
  | MCPCall.addIssueComment _ _ => true
  | _ => false

theorem file_creation_steps_calls
    (cf : List Char → List Char → List Char → List Char → Bool)
    (task : GitHubIssue) (branch_name : List Char) :
    ∀ blocks i, ∀ call ∈ (file_creation_steps cf task branch_name i blocks).1,
      isCreateFileCall call = true := by
  intro blocks
  induction blocks with
  | nil =>
    intro i call hc
    simp [file_creation_steps] at hc
  | cons b rest ih =>
    intro i call hc
    by_cases hs : b.language ∈ supported_languages
    · simp only [file_creation_steps, if_pos hs] at hc
      rcases List.mem_cons.mp hc with h | h
      · subst h; rfl
      · exact ih (i + 1) call h
    · simp only [file_creation_steps, if_neg hs] at hc
      exact ih (i + 1) call hc

/-- Case analysis of `_create_pull_request_for_issue`: the four terminal
shapes of the mutation sequence, with the trace and result string of each. -/
theorem cpr_cases (env : MCPEnv) (task : GitHubIssue) (analysis_result : List Char) :
    (extract_code_blocks analysis_result = [] ∧
      create_pull_request_for_issue env task analysis_result
        = ([], "No code implementation found in analysis".toList)) ∨
    (extract_code_blocks analysis_result ≠ [] ∧
      env.create_branch (branch_name_for task) ("main".toList) = false ∧
      create_pull_request_for_issue env task analysis_result
        = ([MCPCall.createBranch (branch_name_for task) ("main".toList)],
           ("❌ Failed to create branch ".toList) ++ branch_name_for task
             ++ (" for issue #".toList) ++ natRepr task.number)) ∨
    (extract_code_blocks analysis_result ≠ [] ∧
      env.create_branch (branch_name_for task) ("main".toList) = true ∧
      (file_creation_steps env.create_file task (branch_name_for task) 0
          (extract_code_blocks analysis_result)).2 = 0 ∧
      create_pull_request_for_issue env task analysis_result
        = (MCPCall.createBranch (branch_name_for task) ("main".toList)
             :: (file_creation_steps env.create_file task (branch_name_for task) 0
                  (extract_code_blocks analysis_result)).1,
           ("❌ No implementation files were created for issue #".toList)
             ++ natRepr task.number)) ∨
    (∃ pr, extract_code_blocks analysis_result ≠ [] ∧
      env.create_branch (branch_name_for task) ("main".toList) = true ∧
      (file_creation_steps env.create_file task (branch_name_for task) 0
          (extract_code_blocks analysis_result)).2 ≠ 0 ∧
      env.create_pull_request (pr_title_for task)
          (pr_body_for task (extract_code_blocks analysis_result))
          (branch_name_for task) ("main".toList) = some pr ∧
      create_pull_request_for_issue env task analysis_result
        = (MCPCall.createBranch (branch_name_for task) ("main".toList)
             :: (file_creation_steps env.create_file task (branch_name_for task) 0
                  (extract_code_blocks analysis_result)).1
             ++ [MCPCall.createPullRequest (pr_title_for task)
                  (pr_body_for task (extract_code_blocks analysis_result))
                  (branch_name_for task) ("main".toList)],
           ("✅ Successfully created pull request #".toList) ++ natRepr pr.number
             ++ (": ".toList) ++ pr.html_url)) ∨
    (extract_code_blocks analysis_result ≠ [] ∧
      env.create_branch (branch_name_for task) ("main".toList) = true ∧
      (file_creation_steps env.create_file task (branch_name_for task) 0
          (extract_code_blocks analysis_result)).2 ≠ 0 ∧
      env.create_pull_request (pr_title_for task)
          (pr_body_for task (extract_code_blocks analysis_result))
          (branch_name_for task) ("main".toList) = none ∧
      create_pull_request_for_issue env task analysis_result
        = (MCPCall.createBranch (branch_name_for task) ("main".toList)
             :: (file_creation_steps env.create_file task (branch_name_for task) 0
                  (extract_code_blocks analysis_result)).1
             ++ [MCPCall.createPullRequest (pr_title_for task)
                  (pr_body_for task (extract_code_blocks analysis_result))
                  (branch_name_for task) ("main".toList)],
           ("❌ Failed to create pull request for issue #".toList)
             ++ natRepr task.number)) := by
  by_cases h1 : extract_code_blocks analysis_result = []
  · refine Or.inl ⟨h1, ?_⟩
    simp only [create_pull_request_for_issue]
    rw [if_pos h1]
  · by_cases h2 : env.create_branch (branch_name_for task) ("main".toList) = false
    · refine Or.inr (Or.inl ⟨h1, h2, ?_⟩)
      simp only [create_pull_request_for_issue]
      rw [if_neg h1, if_pos h2]
    · have h2' : env.create_branch (branch_name_for task) ("main".toList) = true := by
        revert h2
        cases env.create_branch (branch_name_for task) ("main".toList) <;> simp
      by_cases h3 : (file_creation_steps env.create_file task (branch_name_for task) 0
          (extract_code_blocks analysis_result)).2 = 0
      · refine Or.inr (Or.inr (Or.inl ⟨h1, h2', h3, ?_⟩))
        simp only [create_pull_request_for_issue]
        rw [if_neg h1, if_neg h2, if_pos h3]
      · cases hp : env.create_pull_request (pr_title_for task)
            (pr_body_for task (extract_code_blocks analysis_result))
            (branch_name_for task) ("main".toList) with
        | some pr =>
          refine Or.inr (Or.inr (Or.inr (Or.inl ⟨pr, h1, h2', h3, rfl, ?_⟩)))
          simp only [create_pull_request_for_issue]
          rw [if_neg h1, if_neg h2, if_neg h3, hp]
        | none =>
          refine Or.inr (Or.inr (Or.inr (Or.inr ⟨h1, h2', h3, rfl, ?_⟩)))
          simp only [create_pull_request_for_issue]
          rw [if_neg h1, if_neg h2, if_neg h3, hp]

/-- Claim C2: the mutation sequence of one RequiresCodeChange issue is gated
step by step.  With zero extracted code blocks no call at all is made and the
result reports that no implementation was found; a file-creation call occurs
in the trace only if branch creation succeeded; a pull-request call occurs
only if branch creation succeeded and at least one file-creation call
succeeded. -/
theorem c2_pr_sequence_gating (env : MCPEnv) (task : GitHubIssue)
    (analysis_result : List Char) :
    (extract_code_blocks analysis_result = [] →
      create_pull_request_for_issue env task analysis_result
        = ([], "No code implementation found in analysis".toList)) ∧
    (∀ call ∈ (create_pull_request_for_issue env task analysis_result).1,
      isCreateFileCall call = true →
        env.create_branch (branch_name_for task) ("main".toList) = true) ∧
    (∀ call ∈ (create_pull_request_for_issue env task analysis_result).1,
      isCreatePullRequestCall call = true →
        env.create_branch (branch_name_for task) ("main".toList) = true ∧
        1 ≤ (file_creation_steps env.create_file task (branch_name_for task) 0
              (extract_code_blocks analysis_result)).2) := by
  rcases cpr_cases env task analysis_result with
    ⟨h1, heq⟩ | ⟨h1, h2, heq⟩ | ⟨h1, h2, h3, heq⟩ |
    ⟨pr, h1, h2, h3, hp, heq⟩ | ⟨h1, h2, h3, hp, heq⟩
  · refine ⟨fun _ => heq, ?_, ?_⟩ <;>
      · intro call hc
        rw [heq] at hc
        simp at hc
  · refine ⟨fun hx => absurd hx h1, ?_, ?_⟩ <;>
      · intro call hc hkind
        rw [heq] at hc
        simp at hc
        subst hc
        simp [isCreateFileCall, isCreatePullRequestCall] at hkind
  · refine ⟨fun hx => absurd hx h1, fun _ _ _ => h2, ?_⟩
    intro call hc hkind
    exfalso
    rw [heq] at hc
    rcases List.mem_cons.mp hc with h | h
    · subst h
      simp [isCreatePullRequestCall] at hkind
    · have := file_creation_steps_calls env.create_file task (branch_name_for task) _ _ call h
      cases call <;> simp [isCreateFileCall, isCreatePullRequestCall] at this hkind
  · exact ⟨fun hx => absurd hx h1, fun _ _ _ => h2, fun _ _ _ => ⟨h2, by omega⟩⟩
  · exact ⟨fun hx => absurd hx h1, fun _ _ _ => h2, fun _ _ _ => ⟨h2, by omega⟩⟩

/-- A concrete all-succeeding oracle used by witnesses. -/
def happyEnv : MCPEnv where
  create_branch := fun _ _ => true
  create_file := fun _ _ _ _ => true
  create_pull_request := fun _ _ _ _ =>
    some ⟨12, "https://github.com/o/r/pull/12".toList⟩
  close_issue := fun _ _ => true
  add_issue_comment := fun _ _ => true

/-- A concrete issue whose text contains the code keyword `add`. -/
def sampleTask : GitHubIssue :=
  ⟨3, "Add cli".toList, "Please add cli".toList, "open".toList, [], [], [], []⟩

/-- A concrete analysis text with one python code block. -/
def sampleAnalysis : List Char := "```python\nx = 1\n```".toList

/-- Witness for claim C2 at concrete inputs: a blockless analysis makes no
calls, and on a successful run the pull-request call is covered by a
successful branch and at least one successful file. -/
theorem c2_pr_sequence_gating_witness :
    (create_pull_request_for_issue happyEnv sampleTask ("plain text".toList)
      = ([], "No code implementation found in analysis".toList)) ∧
    (happyEnv.create_branch (branch_name_for sampleTask) ("main".toList) = true ∧
     1 ≤ (file_creation_steps happyEnv.create_file sampleTask
            (branch_name_for sampleTask) 0 (extract_code_blocks sampleAnalysis)).2) :=
  ⟨(c2_pr_sequence_gating happyEnv sampleTask ("plain text".toList)).1 (by decide),
   (c2_pr_sequence_gating happyEnv sampleTask sampleAnalysis).2.2
     (MCPCall.createPullRequest (pr_title_for sampleTask)
       (pr_body_for sampleTask (extract_code_blocks sampleAnalysis))
       (branch_name_for sampleTask) ("main".toList))
     (by decide) (by decide)⟩

/-- The file-creation call the specification predicts for the enumerated
block `(i, block)`: one call at
`ai_task_implementations/ai_task_implementation_<i+1><extension>` when the
language is supported, none otherwise. -/
def file_call_of_block (task : GitHubIssue) (branch_name : List Char)
    (p : Nat × CodeBlock) : Option MCPCall :=
  if p.2.language ∈ supported_languages then
    some (MCPCall.createFile
      (("ai_task_implementations/ai_task_implementation_".toList)
        ++ natRepr (p.1 + 1)
        ++ ((List.lookup p.2.language ext_map).getD (".txt".toList)))
      p.2.code branch_name
      (("Add implementation for issue #".toList) ++ natRepr task.number))
  else none

theorem file_creation_steps_enum
    (cf : List Char → List Char → List Char → List Char → Bool)
    (task : GitHubIssue) (branch_name : List Char) :
    ∀ blocks i, (file_creation_steps cf task branch_name i blocks).1
      = (blocks.enumFrom i).filterMap (file_call_of_block task branch_name) := by
  intro blocks
  induction blocks with
  | nil => intro i; rfl
  | cons b rest ih =>
    intro i
    rw [List.enumFrom_cons]
    by_cases hs : b.language ∈ supported_languages
    · have hf : file_call_of_block task branch_name (i, b)
          = some (MCPCall.createFile
              (("ai_task_implementations/ai_task_implementation_".toList)
                ++ natRepr (i + 1)
                ++ ((List.lookup b.language ext_map).getD (".txt".toList)))
              b.code branch_name
              (("Add implementation for issue #".toList) ++ natRepr task.number)) := by
        simp only [file_call_of_block, if_pos hs]
      rw [List.filterMap_cons_some hf]
      simp only [file_creation_steps, if_pos hs]
      rw [ih (i + 1)]
    · have hf : file_call_of_block task branch_name (i, b) = none := by
        simp only [file_call_of_block, if_neg hs]
      rw [List.filterMap_cons_none hf]
      simp only [file_creation_steps, if_neg hs]
      exact ih (i + 1)

/-- Claim C7: the file-creation loop makes exactly one file-creation call per
block with a supported language tag, at
`ai_task_implementations/ai_task_implementation_<1-based index><extension>`,
and no call for any other tag (the block is skipped, never given a default
extension); the extension map sends python→.py, js/javascript→.js,
typescript→.ts, java→.java, cpp→.cpp, c→.c, go→.go, rust→.rs. -/
theorem c7_file_calls_per_block
    (cf : List Char → List Char → List Char → List Char → Bool)
    (task : GitHubIssue) (branch_name : List Char) (blocks : List CodeBlock) :
    ((file_creation_steps cf task branch_name 0 blocks).1
      = blocks.enum.filterMap (file_call_of_block task branch_name)) ∧
    (List.lookup ("python".toList) ext_map = some (".py".toList) ∧
     List.lookup ("js".toList) ext_map = some (".js".toList) ∧
     List.lookup ("javascript".toList) ext_map = some (".js".toList) ∧
     List.lookup ("typescript".toList) ext_map = some (".ts".toList) ∧
     List.lookup ("java".toList) ext_map = some (".java".toList) ∧
     List.lookup ("cpp".toList) ext_map = some (".cpp".toList) ∧
     List.lookup ("c".toList) ext_map = some (".c".toList) ∧
     List.lookup ("go".toList) ext_map = some (".go".toList) ∧
     List.lookup ("rust".toList) ext_map = some (".rs".toList)) :=
  ⟨file_creation_steps_enum cf task branch_name blocks 0, by decide⟩

/-- Claim C10 (implicit): whenever a pull-request call is made, its body
embeds the first extracted code block inside a fence tagged `python`,
whatever the block's own language tag; moreover the synthesized body never
depends on that tag at all. -/
theorem c10_pr_body_python_fence (env : MCPEnv) (task : GitHubIssue)
    (analysis_result : List Char) :
    (∀ title body head base,
      MCPCall.createPullRequest title body head base
          ∈ (create_pull_request_for_issue env task analysis_result).1 →
      ∃ b rest, extract_code_blocks analysis_result = b :: rest ∧
        (("```python\n".toList) ++ b.code ++ ("\n```".toList)) <:+: body) ∧
    (∀ l1 l2 code r1 r2,
      pr_body_for task ({ language := l1, code := code } :: r1)
        = pr_body_for task ({ language := l2, code := code } :: r2)) := by
  constructor
  · intro title body head base hmem
    rcases cpr_cases env task analysis_result with
      ⟨h1, heq⟩ | ⟨h1, h2, heq⟩ | ⟨h1, h2, h3, heq⟩ |
      ⟨pr, h1, h2, h3, hp, heq⟩ | ⟨h1, h2, h3, hp, heq⟩
    · rw [heq] at hmem
      simp at hmem
    · rw [heq] at hmem
      simp at hmem
    · rw [heq] at hmem
      exfalso
      rcases List.mem_cons.mp hmem with h | h
      · simp at h
      · have := file_creation_steps_calls env.create_file task (branch_name_for task) _ _ _ h
        simp [isCreateFileCall] at this
    · rw [heq] at hmem
      rcases List.mem_cons.mp hmem with h | h
      · exact absurd h (by simp)
      · rcases List.mem_append.mp h with h' | h'
        · have := file_creation_steps_calls env.create_file task (branch_name_for task) _ _ _ h'
          simp [isCreateFileCall] at this
        · simp only [List.mem_singleton, MCPCall.createPullRequest.injEq] at h'
          obtain ⟨ht, hb, hh, hba⟩ := h'
          subst hb
          cases hcb : extract_code_blocks analysis_result with
          | nil => exact absurd hcb h1
          | cons b rest =>
            refine ⟨b, rest, rfl, ?_⟩
            refine ⟨("## AI Agent Implementation\n\nThis pull request implements the requirements from Issue #".toList)
              ++ natRepr task.number ++ (": ".toList) ++ task.title
              ++ ("\n\n### Changes Made:\n".toList) ++ task.body
              ++ ("\n\n### Implementation:\nThe AI agent has analyzed the requirements and provided the following implementation:\n\n".toList),
              ("\n\n### Files Created/Modified:\n- Generated implementation files saved to `ai_task_implementations/`\n\n### Review Notes:\n- This implementation follows the exact requirements from the GitHub issue\n- No extra features were added beyond what was requested\n- Code has been reviewed for accuracy and completeness\n\n---\n*This PR was automatically generated by the AI Dev Agents system.*".toList), ?_⟩
            simp [pr_body_for, List.append_assoc]
    · rw [heq] at hmem
      rcases List.mem_cons.mp hmem with h | h
      · exact absurd h (by simp)
      · rcases List.mem_append.mp h with h' | h'
        · have := file_creation_steps_calls env.create_file task (branch_name_for task) _ _ _ h'
          simp [isCreateFileCall] at this
        · simp only [List.mem_singleton, MCPCall.createPullRequest.injEq] at h'
          obtain ⟨ht, hb, hh, hba⟩ := h'
          subst hb
          cases hcb : extract_code_blocks analysis_result with
          | nil => exact absurd hcb h1
          | cons b rest =>
            refine ⟨b, rest, rfl, ?_⟩
            refine ⟨("## AI Agent Implementation\n\nThis pull request implements the requirements from Issue #".toList)
              ++ natRepr task.number ++ (": ".toList) ++ task.title
              ++ ("\n\n### Changes Made:\n".toList) ++ task.body
              ++ ("\n\n### Implementation:\nThe AI agent has analyzed the requirements and provided the following implementation:\n\n".toList),
              ("\n\n### Files Created/Modified:\n- Generated implementation files saved to `ai_task_implementations/`\n\n### Review Notes:\n- This implementation follows the exact requirements from the GitHub issue\n- No extra features were added beyond what was requested\n- Code has been reviewed for accuracy and completeness\n\n---\n*This PR was automatically generated by the AI Dev Agents system.*".toList), ?_⟩
            simp [pr_body_for, List.append_assoc]
  · intro l1 l2 code r1 r2
    rfl

/-- Witness for claim C10: the concrete successful run embeds the first
block's code in a python fence inside the pull-request body. -/
theorem c10_pr_body_python_fence_witness :
    ∃ b rest, extract_code_blocks sampleAnalysis = b :: rest ∧
      (("```python\n".toList) ++ b.code ++ ("\n```".toList)) <:+:
        pr_body_for sampleTask (extract_code_blocks sampleAnalysis) :=
  (c10_pr_body_python_fence happyEnv sampleTask sampleAnalysis).1
    (pr_title_for sampleTask) (pr_body_for sampleTask (extract_code_blocks sampleAnalysis))
    (branch_name_for sampleTask) ("main".toList) (by decide)

theorem getLastD_cons_ne_nil (x : List Char) (l : List (List Char)) (hl : l ≠ []) :
    (x :: l).getLastD [] = l.getLastD [] := by
  cases l with
  | nil => exact absurd rfl hl
  | cons y ys => simp [List.getLastD_cons]

theorem pySplitCS_ne_nil : ∀ s acc, pySplitCS s acc ≠ [] := by
  intro s acc
  induction s, acc using pySplitCS.induct with
  | case1 acc => simp [pySplitCS]
  | case2 ch acc => simp [pySplitCS]
  | case3 ch1 ch2 rest acc hcond ih =>
    rw [pySplitCS, if_pos hcond]
    simp
  | case4 ch1 ch2 rest acc hcond ih =>
    rw [pySplitCS, if_neg hcond]
    exact ih

theorem pySplitCS_no_sep :
    ∀ s acc, ¬ ((": ".toList) <:+: s) → pySplitCS s acc = [acc.reverse ++ s] := by
  intro s acc
  induction s, acc using pySplitCS.induct with
  | case1 acc =>
    intro _
    simp [pySplitCS]
  | case2 ch acc =>
    intro _
    simp [pySplitCS]
  | case3 ch1 ch2 rest acc hcond ih =>
    intro hs
    exfalso
    exact hs ⟨[], rest, by simp [hcond.1, hcond.2]⟩
  | case4 ch1 ch2 rest acc hcond ih =>
    intro hs
    rw [pySplitCS, if_neg hcond]
    rw [ih (fun hinf => hs (List.infix_cons hinf))]
    simp

theorem pySplitCS_sep_head (b acc : List Char) (hb : ¬ ((": ".toList) <:+: b)) :
    (pySplitCS (':' :: ' ' :: b) acc).getLastD [] = b := by
  rw [pySplitCS, if_pos ⟨rfl, rfl⟩, pySplitCS_no_sep b [] hb]
  simp [List.getLastD_cons]

theorem pySplitCS_last_aux :
    ∀ n a b acc, a.length ≤ n → ¬ ((": ".toList) <:+: b) →
      (pySplitCS (a ++ (": ".toList) ++ b) acc).getLastD [] = b := by
  intro n
  induction n with
  | zero =>
    intro a b acc ha hb
    have h0 : a = [] := List.eq_nil_of_length_eq_zero (by omega)
    subst h0
    exact pySplitCS_sep_head b acc hb
  | succ n ih =>
    intro a b acc ha hb
    match a with
    | [] => exact pySplitCS_sep_head b acc hb
    | [ch] =>
      show (pySplitCS (ch :: ':' :: ' ' :: b) acc).getLastD [] = b
      rw [pySplitCS, if_neg (fun hcon => absurd hcon.2 (by decide))]
      exact pySplitCS_sep_head b (ch :: acc) hb
    | ch1 :: ch2 :: a2 =>
      show (pySplitCS (ch1 :: ch2 :: (a2 ++ (": ".toList) ++ b)) acc).getLastD [] = b
      rw [pySplitCS]
      by_cases hcond : ch1 = ':' ∧ ch2 = ' '
      · rw [if_pos hcond]
        rw [getLastD_cons_ne_nil _ _ (pySplitCS_ne_nil _ _)]
        exact ih a2 b [] (by simp at ha; omega) hb
      · rw [if_neg hcond]
        have h2 := ih (ch2 :: a2) b (ch1 :: acc) (by simp at ha ⊢; omega) hb
        simpa using h2

theorem cpr_no_comment_calls (env : MCPEnv) (task : GitHubIssue)
    (analysis_result : List Char) :
    ∀ call ∈ (create_pull_request_for_issue env task analysis_result).1,
      isAddIssueCommentCall call = false := by
  intro call hc
  rcases cpr_cases env task analysis_result with
    ⟨h1, heq⟩ | ⟨h1, h2, heq⟩ | ⟨h1, h2, h3, heq⟩ |
    ⟨pr, h1, h2, h3, hp, heq⟩ | ⟨h1, h2, h3, hp, heq⟩ <;>
    rw [heq] at hc
  · simp at hc
  · simp at hc
    subst hc
    rfl
  · rcases List.mem_cons.mp hc with h | h
    · subst h
      rfl
    · have := file_creation_steps_calls env.create_file task (branch_name_for task) _ _ _ h
      cases call <;> simp_all [isCreateFileCall, isAddIssueCommentCall]
  · rcases List.mem_cons.mp hc with h | h
    · subst h
      rfl
    · rcases List.mem_append.mp h with h2' | h2'
      · have := file_creation_steps_calls env.create_file task (branch_name_for task) _ _ _ h2'
        cases call <;> simp_all [isCreateFileCall, isAddIssueCommentCall]
      · simp at h2'
        subst h2'
        rfl
  · rcases List.mem_cons.mp hc with h | h
    · subst h
      rfl
    · rcases List.mem_append.mp h with h2' | h2'
      · have := file_creation_steps_calls env.create_file task (branch_name_for task) _ _ _ h2'
        cases call <;> simp_all [isCreateFileCall, isAddIssueCommentCall]
      · simp at h2'
        subst h2'
        rfl

/-- Claim C6: for every issue classified RequiresCodeChange, after the
pull-request attempt the executor makes exactly one add-comment call
targeting that issue, carrying the follow-up comment built from the attempt's
result string; when the attempt succeeded the comment contains the
pull-request URL (for URLs not themselves containing the separator `": "`
the source splits on); when it did not, the comment is the failure
description embedding the result string. -/
theorem c6_exactly_one_follow_up (env : MCPEnv) (task : GitHubIssue)
    (analysis_result : List Char) (h : requires_code_changes task = true) :
    ((take_action_on_issue env task analysis_result).1.filter isAddIssueCommentCall
      = [MCPCall.addIssueComment task.number
          (follow_up_comment (create_pull_request_for_issue env task analysis_result).2)]) ∧
    (∀ pr : PullRequestData, extract_code_blocks analysis_result ≠ [] →
      env.create_branch (branch_name_for task) ("main".toList) = true →
      (file_creation_steps env.create_file task (branch_name_for task) 0
          (extract_code_blocks analysis_result)).2 ≠ 0 →
      env.create_pull_request (pr_title_for task)
          (pr_body_for task (extract_code_blocks analysis_result))
          (branch_name_for task) ("main".toList) = some pr →
      ¬ ((": ".toList) <:+: pr.html_url) →
      pr.html_url <:+:
        follow_up_comment (create_pull_request_for_issue env task analysis_result).2) ∧
    (pyIn ("Successfully created pull request".toList)
        (create_pull_request_for_issue env task analysis_result).2 = false →
      follow_up_comment (create_pull_request_for_issue env task analysis_result).2
        = ("🤖 AI Agent attempted to create a pull request but encountered an issue: ".toList)
          ++ (create_pull_request_for_issue env task analysis_result).2) := by
  have hcl : classify_issue task = IssueAction.requiresCodeChange := by
    simp [classify_issue, h]
  refine ⟨?_, ?_, ?_⟩
  · simp only [take_action_on_issue, hcl]
    rw [List.filter_append,
        List.filter_eq_nil_iff.mpr
          (fun call hcall => by
            rw [cpr_no_comment_calls env task analysis_result call hcall]
            simp)]
    simp [isAddIssueCommentCall]
  · intro pr h1 h2 h3 hp hurl
    have h2' : ¬ env.create_branch (branch_name_for task) ("main".toList) = false := by
      rw [h2]
      simp
    have heq : (create_pull_request_for_issue env task analysis_result).2
        = ("✅ Successfully created pull request #".toList) ++ natRepr pr.number
          ++ (": ".toList) ++ pr.html_url := by
      simp only [create_pull_request_for_issue]
      rw [if_neg h1, if_neg h2', if_neg h3, hp]
    rw [heq]
    have hin1 : pyIn ("Successfully created pull request".toList)
        (("✅ Successfully created pull request #".toList) ++ natRepr pr.number
          ++ (": ".toList) ++ pr.html_url) = true := by
      rw [pyIn_iff]
      refine ⟨"✅ ".toList,
        (" #".toList) ++ natRepr pr.number ++ (": ".toList) ++ pr.html_url, ?_⟩
      simp [List.append_assoc]
    have hin2 : pyIn (": ".toList)
        (("✅ Successfully created pull request #".toList) ++ natRepr pr.number
          ++ (": ".toList) ++ pr.html_url) = true := by
      rw [pyIn_iff]
      exact ⟨("✅ Successfully created pull request #".toList) ++ natRepr pr.number,
        pr.html_url, by simp [List.append_assoc]⟩
    rw [follow_up_comment, if_pos hin1, if_pos hin2]
    rw [pySplitCS_last_aux
      (("✅ Successfully created pull request #".toList) ++ natRepr pr.number).length
      (("✅ Successfully created pull request #".toList) ++ natRepr pr.number)
      pr.html_url [] (le_refl _) hurl]
    exact ⟨("🤖 AI Agent has created a pull request to address this issue: ".toList),
      ("\n\nPlease review the implementation.".toList), rfl⟩
  · intro hno
    rw [follow_up_comment, if_neg (by rw [hno]; simp)]

/-- Witness for claim C6 at concrete inputs: the concrete successful run makes
exactly one follow-up comment whose text contains the pull-request URL. -/
theorem c6_exactly_one_follow_up_witness :
    ((take_action_on_issue happyEnv sampleTask sampleAnalysis).1.filter
        isAddIssueCommentCall
      = [MCPCall.addIssueComment sampleTask.number
          (follow_up_comment
            (create_pull_request_for_issue happyEnv sampleTask sampleAnalysis).2)]) ∧
    ("https://github.com/o/r/pull/12".toList) <:+:
      follow_up_comment
        (create_pull_request_for_issue happyEnv sampleTask sampleAnalysis).2 :=
  ⟨(c6_exactly_one_follow_up happyEnv sampleTask sampleAnalysis (by decide)).1,
   (c6_exactly_one_follow_up happyEnv sampleTask sampleAnalysis (by decide)).2.1
     ⟨12, "https://github.com/o/r/pull/12".toList⟩
     (by decide) (by decide) (by decide) (by decide) (by decide)⟩

/-- Concrete fenced blocks for the round-trip witness: a tagged and an
untagged block. -/
def sampleBlocks : List (List Char × List Char) :=
  [("python".toList, "def f():\n    return 1\n".toList),
   ([], "x = 2".toList)]

/-- Witness for claim C3: the concrete two-block round trip. -/
theorem c3_extract_round_trip_witness :
    extract_code_blocks ((sampleBlocks.map (fun p => fencedRegion p.1 p.2)).flatten)
      = sampleBlocks.map (fun p =>
          { language := if p.1 = [] then "text".toList else p.1
            code := pyStrip p.2 : CodeBlock }) :=
  c3_extract_round_trip sampleBlocks (by decide)

/-- Witness for claim C4: two issues sharing number and title but differing
in body get the same branch name. -/
theorem c4_branch_name_witness :
    branch_name_for
        ⟨12, "Fix: the bug now!".toList, "b".toList, "open".toList, [], [], [], []⟩
      = branch_name_for
        ⟨12, "Fix: the bug now!".toList, "a".toList, "open".toList, [], [], [], []⟩ :=
  (c4_branch_name
      ⟨12, "Fix: the bug now!".toList, "a".toList, "open".toList, [], [], [], []⟩).2.2.2
    ⟨12, "Fix: the bug now!".toList, "b".toList, "open".toList, [], [], [], []⟩ rfl rfl

theorem cpr_env_independent (env env' : MCPEnv) (task : GitHubIssue)
    (analysis_result : List Char)
    (hb : env.create_branch = env'.create_branch)
    (hf : env.create_file = env'.create_file)
    (hp : env.create_pull_request = env'.create_pull_request) :
    create_pull_request_for_issue env task analysis_result
      = create_pull_request_for_issue env' task analysis_result := by
  simp only [create_pull_request_for_issue]
  rw [hb, hf, hp]

theorem taio_env_independent (env env' : MCPEnv) (task : GitHubIssue)
    (analysis_result : List Char)
    (hb : env.create_branch = env'.create_branch)
    (hf : env.create_file = env'.create_file)
    (hp : env.create_pull_request = env'.create_pull_request) :
    take_action_on_issue env task analysis_result
      = take_action_on_issue env' task analysis_result := by
  simp only [take_action_on_issue]
  rw [cpr_env_independent env env' task analysis_result hb hf hp]

theorem taio_header_mem (env : MCPEnv) (task : GitHubIssue)
    (analysis_result : List Char) :
    (("\nProcessing Issue #".toList) ++ natRepr task.number
      ++ (": ".toList) ++ task.title)
      ∈ (take_action_on_issue env task analysis_result).2 := by
  simp only [take_action_on_issue]
  split <;> simp

theorem take_action_fold_mem (env : MCPEnv) (analysis_result : List Char) :
    ∀ (tasks : List GitHubIssue) (acc : List MCPCall × List (List Char))
      (x : List Char), x ∈ acc.2 →
      x ∈ (tasks.foldl (take_action_step env analysis_result) acc).2 := by
  intro tasks
  induction tasks with
  | nil =>
    intro acc x hx
    simpa using hx
  | cons t rest ih =>
    intro acc x hx
    simp only [List.foldl_cons]
    exact ih _ x (by simp [take_action_step, hx])

theorem take_action_fold_header (env : MCPEnv) (analysis_result : List Char) :
    ∀ (tasks : List GitHubIssue) (acc : List MCPCall × List (List Char))
      (task : GitHubIssue), task ∈ tasks →
      (("\nProcessing Issue #".toList) ++ natRepr task.number
        ++ (": ".toList) ++ task.title)
        ∈ (tasks.foldl (take_action_step env analysis_result) acc).2 := by
  intro tasks
  induction tasks with
  | nil =>
    intro acc task h
    simp at h
  | cons t rest ih =>
    intro acc task h
    rcases List.mem_cons.mp h with h | h
    · subst h
      simp only [List.foldl_cons]
      refine take_action_fold_mem env analysis_result rest _ _ ?_
      show _ ∈ (take_action_step env analysis_result acc task).2
      simp only [take_action_step]
      exact List.mem_append.mpr (Or.inr (taio_header_mem env task analysis_result))
    · simp only [List.foldl_cons]
      exact ih _ task h

/-- The oracle of the counterexample to claim C8: branch and file calls
succeed, pull requests fail, and every close or comment call reports
failure. -/
def c8Env : MCPEnv where
  create_branch := fun _ _ => true
  create_file := fun _ _ _ _ => true
  create_pull_request := fun _ _ _ _ => none
  close_issue := fun _ _ => false
  add_issue_comment := fun _ _ => false

/-- The issue of the counterexample to claim C8: no code keyword, the invalid
keyword `spam`. -/
def c8Task : GitHubIssue :=
  ⟨7, "xyz".toList, "spam".toList, "open".toList, [], [], [], []⟩

/-- Counterexample to claim C8: the close call of this invalid issue is made
and returns failure under this oracle, yet its log line carries the success
marker ✅ and no line of the log carries a failure marker — the log does not
reflect the step's actual outcome. -/
theorem c8_counterexample :
    ((take_action_on_issue c8Env c8Task []).1
      = [MCPCall.closeIssue 7
          ("🤖 AI Agent: This issue appears to be invalid or unclear. Closing as requested.".toList)]) ∧
    (c8Env.close_issue 7
        ("🤖 AI Agent: This issue appears to be invalid or unclear. Closing as requested.".toList)
      = false) ∧
    ((take_action_on_issue c8Env c8Task []).2
      = [("\nProcessing Issue #7: xyz".toList),
         ("✅ Closed invalid issue #7".toList)]) ∧
    (∀ line ∈ (take_action_on_issue c8Env c8Task []).2, '❌' ∉ line) := by
  decide

/-- Claim C8 as amended: the action log enumerates every attempted issue (the
processing header of each appears in the log), but the ✅ markers of close
and comment sub-steps are emitted unconditionally rather than reflecting
those calls' outcomes: the entire log is independent of the results of the
`close_issue` and `add_issue_comment` calls — two oracles agreeing on branch,
file and pull-request results produce identical logs. -/
theorem c8_amended_log (env env' : MCPEnv) (tasks : List GitHubIssue)
    (analysis_result : List Char)
    (hb : env.create_branch = env'.create_branch)
    (hf : env.create_file = env'.create_file)
    (hp : env.create_pull_request = env'.create_pull_request) :
    ((take_action_on_issues env tasks analysis_result).2
      = (take_action_on_issues env' tasks analysis_result).2) ∧
    ∀ task ∈ tasks,
      (("\nProcessing Issue #".toList) ++ natRepr task.number
        ++ (": ".toList) ++ task.title)
        ∈ (take_action_on_issues env tasks analysis_result).2 := by
  constructor
  · have hstep : take_action_step env analysis_result
        = take_action_step env' analysis_result := by
      funext acc task
      simp only [take_action_step]
      rw [taio_env_independent env env' task analysis_result hb hf hp]
    simp only [take_action_on_issues]
    rw [hstep]
  · intro task h
    exact take_action_fold_header env analysis_result tasks _ task h

/-- A variant of the C8 oracle whose close and comment calls all succeed. -/
def c8EnvOk : MCPEnv where
  create_branch := fun _ _ => true
  create_file := fun _ _ _ _ => true
  create_pull_request := fun _ _ _ _ => none
  close_issue := fun _ _ => true
  add_issue_comment := fun _ _ => true

/-- Witness for the amended claim C8: with close results flipped from all-true
to all-false the log is unchanged, and the processed issue's header is in the
log. -/
theorem c8_amended_log_witness :
    ((take_action_on_issues c8EnvOk [c8Task] []).2
      = (take_action_on_issues c8Env [c8Task] []).2) ∧
    (("\nProcessing Issue #".toList) ++ natRepr c8Task.number
      ++ (": ".toList) ++ c8Task.title)
      ∈ (take_action_on_issues c8EnvOk [c8Task] []).2 :=
  ⟨(c8_amended_log c8EnvOk c8Env [c8Task] [] rfl rfl rfl).1,
   (c8_amended_log c8EnvOk c8Env [c8Task] [] rfl rfl rfl).2 c8Task (by decide)⟩

end AIDevAgents
